import Mathlib

/-!
Verification of the mmmeld timeline-composition and rendering engine.

The definitions below are a shallow embedding of the Python sources:

- `video_utils.py` (the engine invoked by `mmmeld.py`): media probing,
  `calculate_total_duration`, `create_visual_sequence`, `generate_video`
  (filter-graph construction), and `validate_video`;
- `imagevideo.py` (the legacy single-file engine): its `get_media_duration`,
  `create_visual_sequence` and the background-music chain of its
  `generate_video`.

Durations are modelled as exact rationals (`ℚ`); the Python code uses
floating-point numbers but every claim under study is plain arithmetic on
those values.  Calls to the external `ffprobe` tool are modelled as fields
of a `FileInfo` record holding the observation the tool would return
(`none` standing for an unreadable file / empty or unparseable output), and
fallible Python functions (ones that may raise) are embedded as
`Except ProbeErr` computations.
-/

/-- Error raised by the probing helpers (`subprocess.CalledProcessError`
and `ValueError` both propagate out of `get_media_duration` /
`get_audio_duration` in `video_utils.py`; the distinction is irrelevant to
the claims, so one constructor models both). -/
inductive ProbeErr where
  | probeFailed
  deriving DecidableEq, Repr

/-- One input file, as seen by the two engines.  The boolean fields are the
outcomes of the extension-based classifiers (`video_utils.is_video`,
`video_utils.is_audio`, the image-extension test inside
`imagevideo.is_video`, the audio-extension test inside
`imagevideo.get_media_duration`); `videoPackets` is the result of the
`ffprobe -count_packets` call made by `imagevideo.is_video` (`none` when the
output is not a digit string); `formatDuration` is the result of the
`ffprobe format=duration` probe (`none` when the file is unreadable or the
output is empty or unparseable). -/
structure FileInfo where
  vuVideoExt : Bool
  vuAudioExt : Bool
  ivImageExt : Bool
  ivAudioExt : Bool
  videoPackets : Option Nat
  formatDuration : Option ℚ
  deriving DecidableEq, Repr

/-- Embedding of `video_utils.get_audio_duration` (lines 82-107): returns
the probed duration, raising when ffprobe fails or its output is empty or
unparseable. -/
def vu_get_audio_duration (f : FileInfo) : Except ProbeErr ℚ :=
  match f.formatDuration with
  | some d => Except.ok d
  | none => Except.error ProbeErr.probeFailed

/-- Embedding of `video_utils.get_media_duration` (lines 37-71): images get
the fixed 5-second default without probing; audio files and videos are
probed, and a failed probe raises. -/
def vu_get_media_duration (f : FileInfo) : Except ProbeErr ℚ :=
  if !f.vuVideoExt then
    if f.vuAudioExt then vu_get_audio_duration f
    else Except.ok 5
  else
    match f.formatDuration with
    | some d => Except.ok d
    | none => Except.error ProbeErr.probeFailed

/-- The ffprobe invocations performed by one call of
`video_utils.get_media_duration`: none for an image, exactly one (on the
file itself) for an audio or video file. -/
def vu_probes (f : FileInfo) : List FileInfo :=
  if !f.vuVideoExt then
    if f.vuAudioExt then [f] else []
  else [f]

/-- Embedding of `imagevideo.is_video` (lines 618-628): image extensions are
rejected outright, otherwise the stream probe decides; a failed probe (non
digit output) yields `false`. -/
def iv_is_video (f : FileInfo) : Bool :=
  if f.ivImageExt then false
  else
    match f.videoPackets with
    | some n => decide (0 < n)
    | none => false

/-- Embedding of `imagevideo.get_media_duration` (lines 590-605) together
with the `imagevideo.get_audio_duration` it delegates to (lines 607-616):
audio files fall back to duration 0 when the probe output is unparseable,
non-videos get the fixed 5-second default, videos fall back to duration 0
when the probe fails.  The function never raises. -/
def iv_get_media_duration (f : FileInfo) : Except ProbeErr ℚ :=
  if f.ivAudioExt then Except.ok (f.formatDuration.getD 0)
  else if !(iv_is_video f) then Except.ok 5
  else Except.ok (f.formatDuration.getD 0)

/-- The Python generator expression
`sum(get_media_duration(input_path) for input_path in image_inputs)` in
`video_utils.calculate_total_duration` (line 115): durations are summed
left to right and the first probe failure propagates. -/
def sum_media_durations : List FileInfo → Except ProbeErr ℚ
  | [] => Except.ok 0
  | f :: rest =>
    match vu_get_media_duration f with
    | Except.error e => Except.error e
    | Except.ok d =>
      match sum_media_durations rest with
      | Except.error e => Except.error e
      | Except.ok s => Except.ok (d + s)

/-- Embedding of `video_utils.calculate_total_duration` (lines 109-116). -/
def calculate_total_duration (mainAudioPath : Option FileInfo)
    (imageInputs : List FileInfo) (startMargin endMargin : ℚ) :
    Except ProbeErr ℚ :=
  match mainAudioPath with
  | some a =>
    match vu_get_media_duration a with
    | Except.error e => Except.error e
    | Except.ok d => Except.ok (d + startMargin + endMargin)
  | none =>
    match sum_media_durations imageInputs with
    | Except.error e => Except.error e
    | Except.ok t => Except.ok (max t 5)

/-- The ffprobe invocations performed by one call of
`calculate_total_duration`: with a main audio path only that file is
(possibly) probed; without one, each visual input is handed to
`get_media_duration` in order. -/
def calculate_total_duration_probes (mainAudioPath : Option FileInfo)
    (imageInputs : List FileInfo) : List FileInfo :=
  match mainAudioPath with
  | some a => vu_probes a
  | none => imageInputs.flatMap vu_probes

/-- The guard at `mmmeld.py` lines 200-203: `main` prints an error and exits
when neither an audio path nor any image/video inputs are present. -/
def main_input_guard (audioPath : Option FileInfo)
    (imageInputs : List FileInfo) : Bool :=
  audioPath.isNone && imageInputs.isEmpty

/-- The contribution of one visual input to the no-main-audio total, as the
spec words it: a fixed 5 seconds for an image, the probed duration for a
video. -/
def visual_contribution (f : FileInfo) : ℚ :=
  if f.vuVideoExt then f.formatDuration.getD 0 else 5

/-- One visual input as seen by the sequence builders: the classification
outcome (`isVid`) and, for videos, the probed duration (images are never
probed by the sequence code; their `get_media_duration` is the fixed 5.0). -/
structure Visual where
  isVid : Bool
  dur : ℚ
  deriving DecidableEq, Repr

/-- One placed part of a visual sequence: the source input and the display
duration the builder gave it. -/
structure Seg where
  src : Visual
  dur : ℚ
  deriving DecidableEq, Repr

/-- The value `get_media_duration` returns for a visual input inside
`video_utils.create_visual_sequence` (line 212): the probed duration for a
video, the fixed 5.0 for an image. -/
def vu_media_duration (m : Visual) : ℚ :=
  if m.isVid then m.dur else 5

/-- The trim duration computed at `video_utils.py` lines 213-216:
`min(duration, total_duration)` with a main audio track, otherwise the
video's own duration or the image's fixed 5.0. -/
def vu_trim_duration (hasMainAudio : Bool) (totalDuration : ℚ)
    (m : Visual) : ℚ :=
  if hasMainAudio then min (vu_media_duration m) totalDuration
  else if m.isVid then vu_media_duration m else 5

/-- Embedding of `video_utils.create_visual_sequence` (lines 200-250): each
input contributes exactly one trimmed segment, concatenated in raw input
order. -/
def vu_create_visual_sequence (inputs : List Visual) (totalDuration : ℚ)
    (hasMainAudio : Bool) : List Seg :=
  inputs.map (fun m => ⟨m, vu_trim_duration hasMainAudio totalDuration m⟩)

/-- The audio leg built for one sequence input at `video_utils.py` lines
218-223: synthesized silence of the trim duration for an image, the input's
own (trimmed) audio for a video. -/
inductive SeqAudioSrc where
  | silence (dur : ℚ)
  | fromInput (dur : ℚ)
  deriving DecidableEq, Repr

/-- Which audio source `video_utils.create_visual_sequence` emits for one
input (lines 218-223). -/
def vu_seq_audio_src (m : Visual) (trimDur : ℚ) : SeqAudioSrc :=
  if m.isVid then SeqAudioSrc.fromInput trimDur else SeqAudioSrc.silence trimDur

/-- One step of the video leg of the final filter graph built by
`video_utils.generate_video` (lines 335-341). -/
inductive VStep where
  | loopStep (size : ℤ)
  | trimStep (dur : ℚ)
  | setptsOnly
  deriving DecidableEq, Repr

/-- The video pipeline of `video_utils.generate_video` (lines 335-341): with
a main audio track the whole concatenated sequence is looped
(`loop=-1:size=int(total_duration*30)`) and trimmed to the total duration;
without one it is passed through untouched. -/
def vu_video_pipeline (hasMainAudio : Bool) (totalDuration : ℚ) :
    List VStep :=
  if hasMainAudio then
    [VStep.loopStep ⌊totalDuration * 30⌋, VStep.trimStep totalDuration]
  else [VStep.setptsOnly]

/-- Whether a pipeline step is the loop filter. -/
def vu_is_loop_step : VStep → Bool
  | VStep.loopStep _ => true
  | _ => false

/-- Total display length of the visual sequence built by
`video_utils.create_visual_sequence`. -/
def vu_seq_duration (inputs : List Visual) (totalDuration : ℚ)
    (hasMainAudio : Bool) : ℚ :=
  ((vu_create_visual_sequence inputs totalDuration hasMainAudio).map Seg.dur).sum

/-- Semantics of the loop-then-trim pipeline of lines 338-339: the sequence
content is replayed (some of its segments are shown more than once) exactly
when the pipeline loops it and the sequence is strictly shorter than the
trim target. -/
def vu_sequence_replayed (inputs : List Visual) (totalDuration : ℚ)
    (hasMainAudio : Bool) : Bool :=
  hasMainAudio && decide (vu_seq_duration inputs totalDuration hasMainAudio < totalDuration)

/-- Embedding of the input split at `imagevideo.py` lines 714-715. -/
def iv_video_inputs (inputs : List Visual) : List Visual :=
  inputs.filter (fun m => m.isVid)

/-- Embedding of the input split at `imagevideo.py` lines 714-715. -/
def iv_image_inputs (inputs : List Visual) : List Visual :=
  inputs.filter (fun m => !m.isVid)

/-- Embedding of `total_video_duration` at `imagevideo.py` line 720. -/
def iv_total_video_duration (inputs : List Visual) : ℚ :=
  ((iv_video_inputs inputs).map Visual.dur).sum

/-- The video-placement loop of `imagevideo.create_visual_sequence` (lines
733-739): each video is given `min(duration, total - start)` and the start
cursor advances by the amount actually used. -/
def iv_video_parts (totalDuration : ℚ) : ℚ → List Visual → List Seg
  | _, [] => []
  | start, v :: rest =>
    ⟨v, min v.dur (totalDuration - start)⟩ ::
      iv_video_parts totalDuration (start + min v.dur (totalDuration - start)) rest

/-- Embedding of `imagevideo.create_visual_sequence` (lines 711-742): images
(in input order) first share `max(0, total - videoTotal)` equally, then the
videos follow, trimmed at the `totalDuration` boundary. -/
def iv_create_visual_sequence (inputs : List Visual) (totalDuration : ℚ) :
    List Seg :=
  let imgs := iv_image_inputs inputs
  let vids := iv_video_inputs inputs
  let imageDuration := max 0 (totalDuration - iv_total_video_duration inputs)
  (if ¬imgs.isEmpty ∧ 0 < imageDuration then
    imgs.map (fun i => ⟨i, imageDuration / imgs.length⟩)
  else []) ++ iv_video_parts totalDuration imageDuration vids

/-- Prefix test on character lists (pattern first). -/
def charsPrefixOf : List Char → List Char → Bool
  | [], _ => true
  | _ :: _, [] => false
  | a :: as, b :: bs => a == b && charsPrefixOf as bs

/-- Infix test on character lists (pattern first). -/
def charsInfixOf : List Char → List Char → Bool
  | pat, [] => pat.isEmpty
  | pat, c :: rest => charsPrefixOf pat (c :: rest) || charsInfixOf pat rest

/-- Whether the string `s` mentions `pat` as a substring. -/
def strContainsSub (s pat : String) : Bool :=
  charsInfixOf pat.data s.data

/-- The final-audio filter expression appended by
`video_utils.generate_video` at lines 353-360, by presence of the main
audio path and the background music path.  The strings are the literal
values of the Python f-strings (which interpolate nothing here). -/
def vu_final_audio_filter (hasAudioPath hasBgMusicPath : Bool) : String :=
  if hasAudioPath && hasBgMusicPath then
    "[main_audio][bg_music]amix=inputs=2:duration=first:dropout_transition=2[final_audio];"
  else if hasAudioPath then
    "[main_audio]acopy[final_audio];"
  else if hasBgMusicPath then
    "[1:a][bg_music]amix=inputs=2:duration=first:dropout_transition=2[final_audio];"
  else
    "[1:a]acopy[final_audio];"

/-- The literal main-plus-background mix filter of
`imagevideo.generate_video` at line 678. -/
def iv_main_bg_mix_filter : String :=
  "[main_audio][bg_music]amix=inputs=2:duration=longest[final_audio]"

/-- Duration semantics of the external `amix` filter (its documented
`duration` option): `first` keeps the first input's duration, `shortest`
the minimum, and `longest` (also the default) the maximum. -/
def amix_output_duration (filter : String) (d1 d2 : ℚ) : ℚ :=
  if strContainsSub filter "duration=first" then d1
  else if strContainsSub filter "duration=shortest" then min d1 d2
  else max d1 d2

/-- The output-stream mapping arguments of the final command built by
`video_utils.generate_video` (line 366): both the faded video and the faded
audio stream are always mapped into the output container. -/
def generate_video_map_args : List String :=
  ["-map", "[faded_video]", "-map", "[faded_audio]"]

/-- The background-music chain appended by `video_utils.generate_video` at
line 346: `aloop=-1:size=2e+09` (indefinite stream-level loop) followed by
`volume=bg_music_volume`. -/
structure VuBgChain where
  loopParam : ℤ
  sizeParam : ℤ
  volume : ℚ
  deriving DecidableEq, Repr

/-- Embedding of the chain at `video_utils.py` line 346. -/
def vu_bg_chain (bgMusicVolume : ℚ) : VuBgChain :=
  ⟨-1, 2000000000, bgMusicVolume⟩

/-- The final-audio fade appended by `video_utils.generate_video` at line
362: `afade=t=out:st=total_duration-end_margin:d=end_margin`, returned as
the pair (fade start, fade duration). -/
def vu_final_audio_fade (totalDuration endMargin : ℚ) : ℚ × ℚ :=
  (totalDuration - endMargin, endMargin)

/-- The background-music chain built by `imagevideo.generate_video` at lines
671-677: an `aloop` with `loop = ceil(total/bgDuration) - 1` and
`size = int(bgDuration*48000)`, a `volume` scale, and an `afade` out
starting at `main_audio_duration + 0.5` lasting `fade_duration`. -/
structure IvBgChain where
  loopParam : ℤ
  sizeParam : ℤ
  volume : ℚ
  fadeStart : ℚ
  fadeDur : ℚ
  deriving DecidableEq, Repr

/-- The `fade_duration` constant of `imagevideo.generate_video` (line 633). -/
def iv_fade_duration : ℚ := 2

/-- The total duration computed by `imagevideo.generate_video` (line 632):
main audio duration plus the hardcoded 0.5s lead-in and 2s tail. -/
def iv_total_duration (mainAudioDuration : ℚ) : ℚ :=
  mainAudioDuration + 5/2

/-- Embedding of the chain at `imagevideo.py` lines 671-677. -/
def iv_bg_chain (totalDuration bgMusicDuration mainAudioDuration bgMusicVolume : ℚ) :
    IvBgChain :=
  ⟨⌈totalDuration / bgMusicDuration⌉ - 1, ⌊bgMusicDuration * 48000⌋,
    bgMusicVolume, mainAudioDuration + 1/2, iv_fade_duration⟩

/-- Play-count semantics of the external `aloop` filter's `loop` option:
`-1` loops without bound, `n ≥ 0` plays the stream `n + 1` times. -/
def aloop_plays (loopParam : ℤ) : Option ℕ :=
  if loopParam = -1 then none else some (loopParam.toNat + 1)

/-- Embedding of `video_utils.validate_video` (lines 396-422), over the
observations the two ffprobe calls would make on the produced file: the
probed duration and the number of audio packets.  The audio-packet probe is
only consulted when audio was expected. -/
def validate_video (actualDuration expectedDuration : ℚ) (hasAudio : Bool)
    (audioPackets : ℕ) : Bool :=
  if |actualDuration - expectedDuration| > 1/2 then false
  else if hasAudio = true ∧ audioPackets = 0 then false
  else true

/-- One observable action of `video_utils.generate_video` after its filter
graph has been assembled. -/
inductive RenderStep where
  | runFfmpeg
  | removeTempFile
  | validateOutput
  | returnSuccess
  deriving DecidableEq, Repr

/-- The tail of `video_utils.generate_video` (lines 374-379): the external
encoder is run, the two temporary sequence files are removed, and True is
returned to the caller.  `validate_video` is not called there (nor anywhere
else in the function), so no `RenderStep.validateOutput` occurs. -/
def vu_generate_video_tail_steps : List RenderStep :=
  [RenderStep.runFfmpeg, RenderStep.removeTempFile, RenderStep.removeTempFile,
   RenderStep.returnSuccess]

/-- When every visual input is an image or a successfully probed video, the
summation inside the no-main-audio branch of `calculate_total_duration`
succeeds and equals the sum of the per-input contributions. -/
lemma sum_media_durations_eq (v : List FileInfo)
    (hv : ∀ f ∈ v, f.vuAudioExt = false ∧
      (f.vuVideoExt = true → f.formatDuration.isSome = true)) :
    sum_media_durations v = Except.ok ((v.map visual_contribution).sum) := by
  induction v with
  | nil => simp [sum_media_durations]
  | cons f rest ih =>
    obtain ⟨hna, hvd⟩ := hv f (by simp)
    have hrest : ∀ g ∈ rest, g.vuAudioExt = false ∧
        (g.vuVideoExt = true → g.formatDuration.isSome = true) :=
      fun g hg => hv g (by simp [hg])
    have hfd : vu_get_media_duration f = Except.ok (visual_contribution f) := by
      by_cases h : f.vuVideoExt = true
      · obtain ⟨d, hd⟩ := Option.isSome_iff_exists.mp (hvd h)
        simp [vu_get_media_duration, visual_contribution, h, hd]
      · simp only [Bool.not_eq_true] at h
        simp [vu_get_media_duration, visual_contribution, h, hna]
    simp [sum_media_durations, hfd, ih hrest]

/-- C1: with a main audio path the computed total is the main audio's
duration plus both margins; without one it is the sum of the visual
contributions (a fixed 5 seconds per image, the probed duration per video),
with no margins added and floored at 5 seconds. -/
theorem c1_total_duration_formula (a : FileInfo) (v : List FileInfo)
    (sm em d : ℚ) (ha : vu_get_media_duration a = Except.ok d) :
    calculate_total_duration (some a) v sm em = Except.ok (d + sm + em) ∧
    ((∀ f ∈ v, f.vuAudioExt = false ∧
        (f.vuVideoExt = true → f.formatDuration.isSome = true)) →
      calculate_total_duration none v sm em =
        Except.ok (max ((v.map visual_contribution).sum) 5)) := by
  constructor
  · simp [calculate_total_duration, ha]
  · intro hv
    simp [calculate_total_duration, sum_media_durations_eq v hv]

/-- Witness for C1 at a concrete input: a 7-second audio file, one image
and one 3-second video, margins (1, 2). -/
theorem c1_witness :
    calculate_total_duration
        (some ⟨false, true, false, true, none, some 7⟩)
        [⟨false, false, true, false, none, none⟩,
         ⟨true, false, false, false, some 2, some 3⟩] 1 2 = Except.ok 10 ∧
    calculate_total_duration none
        [⟨false, false, true, false, none, none⟩,
         ⟨true, false, false, false, some 2, some 3⟩] 1 2 = Except.ok 8 := by
  have h := c1_total_duration_formula ⟨false, true, false, true, none, some 7⟩
    [⟨false, false, true, false, none, none⟩,
     ⟨true, false, false, false, some 2, some 3⟩] 1 2 7 rfl
  constructor
  · have h1 := h.1
    norm_num at h1
    exact h1
  · have h2 := h.2 (by decide)
    simp [visual_contribution] at h2
    norm_num at h2
    exact h2

/-- C9 counterexample: called with no main audio and no visual inputs the
duration computation does not fail; it returns the 5-second floor. -/
theorem c9_counterexample :
    calculate_total_duration none [] (1/2) 2 = Except.ok 5 := by rfl

/-- C9 amended: with no main audio and no visual inputs
`calculate_total_duration` returns the 5-second minimum (for any margins)
rather than raising; the precondition is enforced upstream by the guard in
`mmmeld.main`, which exits when neither audio nor visual inputs exist. -/
theorem c9_amended (sm em : ℚ) :
    calculate_total_duration none [] sm em = Except.ok 5 ∧
    main_input_guard none ([] : List FileInfo) = true := by
  exact ⟨rfl, rfl⟩

/-- C10: with a main audio path the computed total duration does not depend
on the visual-input list, and every file probed by the computation is the
main audio file itself (no visual input is probed in that branch). -/
theorem c10_main_audio_independence (a : FileInfo) (v1 v2 : List FileInfo)
    (sm em : ℚ) :
    calculate_total_duration (some a) v1 sm em =
      calculate_total_duration (some a) v2 sm em ∧
    (calculate_total_duration_probes (some a) v1).all
      (fun f => decide (f = a)) = true := by
  constructor
  · rfl
  · simp only [calculate_total_duration_probes, vu_probes]
    split_ifs <;> simp

/-- C2 counterexample: the mix filter built by `video_utils.generate_video`
when both tracks are present selects `duration=first`, so at main duration
3 and background duration 10 the mixed duration is 3, not the maximum 10
the claim requires. -/
theorem c2_counterexample :
    strContainsSub (vu_final_audio_filter true true) "duration=first" = true ∧
    amix_output_duration (vu_final_audio_filter true true) 3 10 = 3 ∧
    (3:ℚ) ≠ max 3 10 := by
  refine ⟨by decide, by rfl, by norm_num⟩

/-- C2 amended: with both tracks present the current engine
(`video_utils.generate_video`) mixes with first-stream duration semantics,
so the mixed duration equals the first input's (the delayed and padded main
audio's) duration; only the legacy engine (`imagevideo.generate_video`)
uses longest-stream semantics. -/
theorem c2_amended (d1 d2 : ℚ) :
    amix_output_duration (vu_final_audio_filter true true) d1 d2 = d1 ∧
    amix_output_duration iv_main_bg_mix_filter d1 d2 = max d1 d2 := by
  constructor
  · have h : strContainsSub (vu_final_audio_filter true true)
        "duration=first" = true := by decide
    simp [amix_output_duration, h]
  · have h1 : strContainsSub iv_main_bg_mix_filter "duration=first" = false := by
      decide
    have h2 : strContainsSub iv_main_bg_mix_filter "duration=shortest" = false := by
      decide
    simp [amix_output_duration, h1, h2]

/-- C3: at the failing input (image-only visuals, no main audio, no
background music) `video_utils.generate_video` still emits an audio stream:
the sequence audio built for an image is synthesized silence, the final
audio is a plain copy of that silent sequence track, and the output command
unconditionally maps `[faded_audio]` into the container. -/
theorem c3_silent_audio_always_mapped :
    vu_seq_audio_src ⟨false, 5⟩ 5 = SeqAudioSrc.silence 5 ∧
    vu_final_audio_filter false false = "[1:a]acopy[final_audio];" ∧
    "[faded_audio]" ∈ generate_video_map_args := by
  refine ⟨rfl, rfl, ?_⟩
  simp [generate_video_map_args]

/-- C7 counterexample, refuting both parts of the claim.  First, validation
does not fail whenever audio-stream presence disagrees with the plan: on an
output with the expected duration, audio packets present but no audio
expected, `validate_video` passes.  Second, validation does not happen
before success is reported: the post-encoder tail of
`video_utils.generate_video` contains no validation step yet reports
success. -/
theorem c7_counterexample :
    (¬ (∀ (actual expected : ℚ) (hasAudio : Bool) (audioPackets : ℕ),
        (validate_video actual expected hasAudio audioPackets = false ↔
          (|actual - expected| > 1/2 ∨
            decide (0 < audioPackets) ≠ hasAudio)))) ∧
    RenderStep.validateOutput ∉ vu_generate_video_tail_steps ∧
    RenderStep.returnSuccess ∈ vu_generate_video_tail_steps := by
  refine ⟨?_, by decide, by decide⟩
  intro h
  have hmem := (h 5 5 false 100).mpr (Or.inr (by decide))
  have hval : validate_video 5 5 false 100 = true := by
    simp [validate_video]
  rw [hval] at hmem
  exact absurd hmem (by decide)

/-- C7 amended: `validate_video` fails exactly when the probed duration
deviates from the expected one by more than 0.5 seconds, or audio was
expected and no audio packets were found; an audio stream that is present
when none was expected is not checked and does not fail validation.
Moreover `generate_video` reports success without invoking this validation:
its post-encoder tail runs the encoder, removes the two temporary sequence
files and returns True, with no validation step. -/
theorem c7_amended (actual expected : ℚ) (hasAudio : Bool)
    (audioPackets : ℕ) :
    (validate_video actual expected hasAudio audioPackets = false ↔
      (|actual - expected| > 1/2 ∨ (hasAudio = true ∧ audioPackets = 0))) ∧
    RenderStep.validateOutput ∉ vu_generate_video_tail_steps ∧
    RenderStep.returnSuccess ∈ vu_generate_video_tail_steps := by
  refine ⟨?_, by decide, by decide⟩
  unfold validate_video
  split_ifs with h1 h2
  · exact iff_of_true rfl (Or.inl h1)
  · exact iff_of_true rfl (Or.inr h2)
  · refine iff_of_false (by simp) ?_
    rintro (hc | hc)
    · exact h1 hc
    · exact h2 hc

/-- C8 counterexample: the legacy probe (`imagevideo.get_media_duration`)
does not raise on an unreadable video (format probe failed, stream probe
saw 3 packets); it substitutes the default duration 0. -/
theorem c8_counterexample :
    iv_get_media_duration ⟨true, false, false, false, some 3, none⟩ =
      Except.ok 0 := by rfl

/-- C8 amended: the current engine's probe
(`video_utils.get_media_duration`) raises on an unreadable video or audio
file and the error propagates (no retry, no substitute value); the legacy
probe (`imagevideo.get_media_duration`) never raises, substituting a
default duration instead. -/
theorem c8_amended (f : FileInfo) :
    (f.vuVideoExt = true → f.formatDuration = none →
      vu_get_media_duration f = Except.error ProbeErr.probeFailed) ∧
    (f.vuVideoExt = false → f.vuAudioExt = true → f.formatDuration = none →
      vu_get_media_duration f = Except.error ProbeErr.probeFailed) ∧
    (∃ d, iv_get_media_duration f = Except.ok d) := by
  refine ⟨?_, ?_, ?_⟩
  · intro hv hd
    simp [vu_get_media_duration, hv, hd]
  · intro hv ha hd
    simp [vu_get_media_duration, vu_get_audio_duration, hv, ha, hd]
  · unfold iv_get_media_duration
    split_ifs <;> exact ⟨_, rfl⟩

/-- Witness for C8 at a concrete unreadable video file. -/
theorem c8_witness :
    vu_get_media_duration ⟨true, false, false, false, some 3, none⟩ =
      Except.error ProbeErr.probeFailed ∧
    (∃ d, iv_get_media_duration ⟨true, false, false, false, some 3, none⟩ =
      Except.ok d) :=
  ⟨(c8_amended ⟨true, false, false, false, some 3, none⟩).1 rfl rfl,
   (c8_amended ⟨true, false, false, false, some 3, none⟩).2.2⟩

/-- When the videos start late enough that they all fit before
`totalDuration`, the video-placement loop of
`imagevideo.create_visual_sequence` gives every video its full duration. -/
lemma iv_video_parts_at_full (vids : List Visual) :
    ∀ (totalDuration start : ℚ), (∀ v ∈ vids, 0 ≤ v.dur) →
    start + ((vids.map Visual.dur).sum) ≤ totalDuration →
    iv_video_parts totalDuration start vids =
      vids.map (fun v => ⟨v, v.dur⟩) := by
  induction vids with
  | nil => intro total start _ _; simp [iv_video_parts]
  | cons v rest ih =>
    intro total start hnn hle
    have hrest_nn : ∀ w ∈ rest, 0 ≤ w.dur := fun w hw => hnn w (by simp [hw])
    have hsum_nn : 0 ≤ (rest.map Visual.dur).sum := by
      apply List.sum_nonneg
      intro x hx
      obtain ⟨w, hw, rfl⟩ := List.mem_map.mp hx
      exact hrest_nn w hw
    have hcons : (((v :: rest).map Visual.dur).sum) =
        v.dur + (rest.map Visual.dur).sum := by simp
    have h1 : v.dur ≤ total - start := by
      rw [hcons] at hle
      linarith
    have hmin : min v.dur (total - start) = v.dur := min_eq_left h1
    simp only [iv_video_parts, hmin, List.map_cons]
    rw [ih total (start + v.dur) hrest_nn (by rw [hcons] at hle; linarith)]

/-- C4 amended: the legacy engine (`imagevideo.create_visual_sequence`)
implements the claimed policy — when the combined video duration is below
the total, every video keeps its full duration, the images (placed first,
whatever the raw input order) share the remaining time equally, and the
placed durations sum to the total, so the videos end exactly at
`totalDuration`.  The current engine
(`video_utils.create_visual_sequence`) instead concatenates in raw input
order (see the counterexample). -/
theorem c4_amended (inputs : List Visual) (totalDuration : ℚ)
    (himg : iv_image_inputs inputs ≠ [])
    (hnn : ∀ m ∈ inputs, 0 ≤ m.dur)
    (hlt : iv_total_video_duration inputs < totalDuration) :
    iv_create_visual_sequence inputs totalDuration =
      (iv_image_inputs inputs).map
        (fun i => ⟨i, (totalDuration - iv_total_video_duration inputs) /
          (iv_image_inputs inputs).length⟩)
      ++ (iv_video_inputs inputs).map (fun v => ⟨v, v.dur⟩) ∧
    ((iv_create_visual_sequence inputs totalDuration).map Seg.dur).sum =
      totalDuration := by
  have hvt : iv_total_video_duration inputs =
      ((iv_video_inputs inputs).map Visual.dur).sum := rfl
  have hmax : max 0 (totalDuration - iv_total_video_duration inputs) =
      totalDuration - iv_total_video_duration inputs :=
    max_eq_right (by linarith)
  have hvids_nn : ∀ v ∈ iv_video_inputs inputs, 0 ≤ v.dur := by
    intro v hv
    exact hnn v (List.mem_of_mem_filter hv)
  have hparts := iv_video_parts_at_full (iv_video_inputs inputs) totalDuration
    (totalDuration - iv_total_video_duration inputs) hvids_nn
    (by rw [← hvt]; linarith)
  have hne : ¬(iv_image_inputs inputs).isEmpty := by
    simpa [List.isEmpty_iff] using himg
  have hcond : ¬(iv_image_inputs inputs).isEmpty ∧
      0 < max 0 (totalDuration - iv_total_video_duration inputs) := by
    refine ⟨hne, ?_⟩
    rw [hmax]
    linarith
  have hmain : iv_create_visual_sequence inputs totalDuration =
      (iv_image_inputs inputs).map
        (fun i => ⟨i, (totalDuration - iv_total_video_duration inputs) /
          (iv_image_inputs inputs).length⟩)
      ++ (iv_video_inputs inputs).map (fun v => ⟨v, v.dur⟩) := by
    simp only [iv_create_visual_sequence]
    rw [if_pos hcond, hmax, hparts]
  refine ⟨hmain, ?_⟩
  rw [hmain]
  have hlen : ((iv_image_inputs inputs).length : ℚ) ≠ 0 := by
    have : (iv_image_inputs inputs).length ≠ 0 :=
      fun h => himg (List.eq_nil_of_length_eq_zero h)
    exact_mod_cast this
  rw [List.map_append, List.sum_append, List.map_map, List.map_map]
  have himgsum :
      ((iv_image_inputs inputs).map
        (Seg.dur ∘ fun i => (⟨i, (totalDuration - iv_total_video_duration inputs) /
          (iv_image_inputs inputs).length⟩ : Seg))).sum =
      totalDuration - iv_total_video_duration inputs := by
    have : (Seg.dur ∘ fun i => (⟨i, (totalDuration - iv_total_video_duration inputs) /
        (iv_image_inputs inputs).length⟩ : Seg)) =
        fun _ => (totalDuration - iv_total_video_duration inputs) /
          (iv_image_inputs inputs).length := rfl
    rw [this, List.map_const', List.sum_replicate, nsmul_eq_mul]
    field_simp
  have hvidsum :
      ((iv_video_inputs inputs).map (Seg.dur ∘ fun v => (⟨v, v.dur⟩ : Seg))).sum =
      iv_total_video_duration inputs := by
    have : (Seg.dur ∘ fun v => (⟨v, v.dur⟩ : Seg)) = Visual.dur := rfl
    rw [this, hvt]
  rw [himgsum, hvidsum]
  ring

/-- C4 counterexample: in the current engine
(`video_utils.create_visual_sequence`), for the spec's own scenario (total
22.5s, one image followed by one 10-second video, main audio present) the
image segment gets `min(5, 22.5) = 5` seconds — not the remaining
`22.5 - 10 = 12.5` seconds the claim requires — and the segments keep raw
input order, summing to 15, so the video ends at 15, not at 22.5. -/
theorem c4_counterexample :
    (vu_create_visual_sequence [⟨false, 5⟩, ⟨true, 10⟩] (45/2) true).map
      Seg.dur = [5, 10] ∧
    (5:ℚ) ≠ 45/2 - 10 ∧
    (((vu_create_visual_sequence [⟨false, 5⟩, ⟨true, 10⟩] (45/2) true).map
      Seg.dur).sum) ≠ 45/2 := by
  have h : (vu_create_visual_sequence [⟨false, 5⟩, ⟨true, 10⟩] (45/2) true).map
      Seg.dur = [5, 10] := by
    simp [vu_create_visual_sequence, vu_trim_duration, vu_media_duration]
    norm_num
  refine ⟨h, by norm_num, ?_⟩
  rw [h]
  norm_num

/-- Witness for C4 at the spec's scenario, run through the legacy engine:
one image and one 10-second video with total 22.5s give the image 12.5
seconds, the video its full 10 seconds, and a sequence summing to 22.5. -/
theorem c4_witness :
    iv_create_visual_sequence [⟨false, 5⟩, ⟨true, 10⟩] (45/2) =
      [⟨⟨false, 5⟩, 25/2⟩, ⟨⟨true, 10⟩, 10⟩] ∧
    ((iv_create_visual_sequence [⟨false, 5⟩, ⟨true, 10⟩] (45/2)).map
      Seg.dur).sum = 45/2 := by
  have h := c4_amended [⟨false, 5⟩, ⟨true, 10⟩] (45/2) (by decide) (by decide)
    (by norm_num [iv_total_video_duration, iv_video_inputs])
  constructor
  · rw [h.1]
    simp [iv_image_inputs, iv_video_inputs, iv_total_video_duration]
    norm_num
  · exact h.2

/-- C5 counterexample: when a main audio track is present and the built
sequence is shorter than the total duration, the loop filter of
`video_utils.generate_video` replays the whole sequence, images included —
here a single 5-second image sequence against a 7.5-second total — so
image segments do loop, refuting the claim. -/
theorem c5_counterexample :
    ¬ (∀ (inputs : List Visual) (totalDuration : ℚ),
        (∃ m ∈ inputs, m.isVid = false) →
        vu_sequence_replayed inputs totalDuration true = false) := by
  intro h
  have hrepl : vu_sequence_replayed [⟨false, 5⟩] (15/2) true = true := by
    simp [vu_sequence_replayed, vu_seq_duration, vu_create_visual_sequence,
      vu_trim_duration, vu_media_duration]
    norm_num
  have hfalse := h [⟨false, 5⟩] (15/2) ⟨⟨false, 5⟩, by simp, rfl⟩
  rw [hrepl] at hfalse
  exact absurd hfalse (by decide)

/-- C5 amended: the sequence builder itself never repeats a segment — each
input, image or video, contributes exactly one segment in input order — but
`video_utils.generate_video` applies its whole-sequence loop filter exactly
when a main audio track is present, regardless of whether any image is
among the inputs, so when the sequence is shorter than the total duration
every segment (images included) is replayed; looping is not restricted to
video-only content. -/
theorem c5_amended (inputs : List Visual) (totalDuration : ℚ)
    (hasMainAudio : Bool) :
    (vu_create_visual_sequence inputs totalDuration hasMainAudio).map
      Seg.src = inputs ∧
    ((∃ s ∈ vu_video_pipeline hasMainAudio totalDuration,
        vu_is_loop_step s = true) ↔ hasMainAudio = true) := by
  constructor
  · have hid : (Seg.src ∘ fun m =>
        (⟨m, vu_trim_duration hasMainAudio totalDuration m⟩ : Seg)) = id := rfl
    rw [vu_create_visual_sequence, List.map_map, hid, List.map_id]
  · cases hasMainAudio with
    | false =>
      simp [vu_video_pipeline, vu_is_loop_step]
    | true =>
      refine iff_of_true ?_ rfl
      exact ⟨VStep.loopStep ⌊totalDuration * 30⌋, by simp [vu_video_pipeline], rfl⟩

/-- C6 counterexample: the background chain of `video_utils.generate_video`
loops without bound (`aloop=-1`), which is not the finite
`ceil(total/bgDuration)` repetition count the claim requires (at total 10
and background duration 3 that count would be 4 plays). -/
theorem c6_counterexample :
    aloop_plays (vu_bg_chain (1/5)).loopParam = none ∧
    aloop_plays (vu_bg_chain (1/5)).loopParam ≠
      some ((⌈(10:ℚ)/3⌉).toNat) := by
  refine ⟨rfl, ?_⟩
  intro hc
  simp [aloop_plays, vu_bg_chain] at hc

/-- C6 amended: the legacy engine (`imagevideo.generate_video`) loops the
background exactly `ceil(total/bgDuration)` times (enough to cover the
total), scales it by the configured volume, and fades it out over the final
`endMargin` (= 2s) window starting at `total − 2`; the current engine
(`video_utils.generate_video`) instead loops the background indefinitely,
scales it by the configured volume, and applies the
`total − endMargin`-to-`total` fade to the final mixed audio. -/
theorem c6_amended (mainAudioDuration bgMusicDuration bgVolume endMargin : ℚ)
    (hm : 0 ≤ mainAudioDuration) (hb : 0 < bgMusicDuration) :
    aloop_plays (iv_bg_chain (iv_total_duration mainAudioDuration)
        bgMusicDuration mainAudioDuration bgVolume).loopParam =
      some ((⌈iv_total_duration mainAudioDuration / bgMusicDuration⌉).toNat) ∧
    iv_total_duration mainAudioDuration ≤
      (⌈iv_total_duration mainAudioDuration / bgMusicDuration⌉ : ℚ) *
        bgMusicDuration ∧
    (iv_bg_chain (iv_total_duration mainAudioDuration) bgMusicDuration
      mainAudioDuration bgVolume).fadeStart =
      iv_total_duration mainAudioDuration - iv_fade_duration ∧
    (iv_bg_chain (iv_total_duration mainAudioDuration) bgMusicDuration
      mainAudioDuration bgVolume).fadeDur = iv_fade_duration ∧
    (iv_bg_chain (iv_total_duration mainAudioDuration) bgMusicDuration
      mainAudioDuration bgVolume).volume = bgVolume ∧
    (vu_bg_chain bgVolume).loopParam = -1 ∧
    (vu_bg_chain bgVolume).volume = bgVolume ∧
    vu_final_audio_fade (iv_total_duration mainAudioDuration) endMargin =
      (iv_total_duration mainAudioDuration - endMargin, endMargin) := by
  have hT : 0 < iv_total_duration mainAudioDuration := by
    unfold iv_total_duration
    linarith
  have hc : 0 < ⌈iv_total_duration mainAudioDuration / bgMusicDuration⌉ :=
    Int.ceil_pos.mpr (div_pos hT hb)
  refine ⟨?_, ?_, ?_, rfl, rfl, rfl, rfl, rfl⟩
  · have hl : (iv_bg_chain (iv_total_duration mainAudioDuration)
        bgMusicDuration mainAudioDuration bgVolume).loopParam =
        ⌈iv_total_duration mainAudioDuration / bgMusicDuration⌉ - 1 := rfl
    rw [hl]
    unfold aloop_plays
    rw [if_neg (by omega)]
    congr 1
    omega
  · have hle := Int.le_ceil (iv_total_duration mainAudioDuration / bgMusicDuration)
    calc iv_total_duration mainAudioDuration
        = (iv_total_duration mainAudioDuration / bgMusicDuration) *
            bgMusicDuration := by field_simp
      _ ≤ (⌈iv_total_duration mainAudioDuration / bgMusicDuration⌉ : ℚ) *
            bgMusicDuration := mul_le_mul_of_nonneg_right hle hb.le
  · show mainAudioDuration + 1/2 = mainAudioDuration + 5/2 - iv_fade_duration
    unfold iv_fade_duration
    ring

/-- Witness for C6: a 10-second main audio (total 12.5s) and a 3-second
background track give exactly 5 background plays. -/
theorem c6_witness :
    (0:ℚ) ≤ 10 ∧ (0:ℚ) < 3 ∧
    aloop_plays (iv_bg_chain (iv_total_duration 10) 3 10 (1/5)).loopParam =
      some 5 := by
  refine ⟨by norm_num, by norm_num, ?_⟩
  have h := (c6_amended 10 3 (1/5) 2 (by norm_num) (by norm_num)).1
  rw [h]
  have hceil : (⌈iv_total_duration 10 / 3⌉ : ℤ) = 5 := by
    unfold iv_total_duration
    rw [Int.ceil_eq_iff]
    norm_num
  rw [hceil]
  rfl
